import Mathlib

/-!
Verification development for the PacketVision capture-analysis engine.

The definitions below are a shallow embedding of the JavaScript sources:
  * `src/server/services/pcapParser.js`    — capture-container codec
  * `src/server/services/packetParser.js`  — Ethernet/IPv4/TCP/UDP dissector
  * `src/server/services/dpiEngine.js`     — DPI extractors and classifier
  * `src/server/services/analysisService.js` — analysis pipeline
  * `src/server/routes/analysis.js`        — filtered export route

Buffers are modelled as `List Nat` (one element per byte); out-of-range
reads default to 0 exactly where the source is guaranteed in bounds.
Fallible parsing returns `Option`; unbounded `while` loops are modelled
with an explicit fuel argument that is always large enough on the paths
the source can take.
-/

namespace PacketVision

/-! ### Byte-level readers (Node `Buffer` methods used by the sources) -/

def readUInt8 (buf : List Nat) (off : Nat) : Nat := buf.getD off 0

def readUInt16LE (buf : List Nat) (off : Nat) : Nat :=
  readUInt8 buf off + 256 * readUInt8 buf (off + 1)

def readUInt16BE (buf : List Nat) (off : Nat) : Nat :=
  256 * readUInt8 buf off + readUInt8 buf (off + 1)

def readUInt32LE (buf : List Nat) (off : Nat) : Nat :=
  readUInt8 buf off + 256 * readUInt8 buf (off + 1) +
    65536 * readUInt8 buf (off + 2) + 16777216 * readUInt8 buf (off + 3)

def readUInt32BE (buf : List Nat) (off : Nat) : Nat :=
  16777216 * readUInt8 buf off + 65536 * readUInt8 buf (off + 1) +
    256 * readUInt8 buf (off + 2) + readUInt8 buf (off + 3)

/-- Little-endian byte serialisation of a 16-bit write (`writeUInt16LE`). -/
def write16LE (n : Nat) : List Nat := [n % 256, n / 256 % 256]

/-- Little-endian byte serialisation of a 32-bit write (`writeUInt32LE`). -/
def write32LE (n : Nat) : List Nat :=
  [n % 256, n / 256 % 256, n / 65536 % 256, n / 16777216 % 256]

/-- JS `buffer.slice(start, start + len)` on the list model. -/
def bufSlice (buf : List Nat) (start len : Nat) : List Nat :=
  (buf.drop start).take len

/-! ### Container codec (`pcapParser.js`) -/

def PCAP_MAGIC_NATIVE : Nat := 0xa1b2c3d4
def PCAP_MAGIC_SWAPPED : Nat := 0xd4c3b2a1

/-- The byte-order dependent 16-bit reader selected in `parseGlobalHeader`. -/
def read16 (swap : Bool) (buf : List Nat) (off : Nat) : Nat :=
  if swap then readUInt16BE buf off else readUInt16LE buf off

/-- The byte-order dependent 32-bit reader selected in `parseGlobalHeader`. -/
def read32 (swap : Bool) (buf : List Nat) (off : Nat) : Nat :=
  if swap then readUInt32BE buf off else readUInt32LE buf off

structure GlobalHeader where
  magic : Nat
  versionMajor : Nat
  versionMinor : Nat
  thisZone : Nat
  sigFigs : Nat
  snapLen : Nat
  network : Nat
  needsSwap : Bool
deriving DecidableEq, Repr

/-- The global-header record built once the magic number has selected
the byte order. -/
def mkGlobalHeader (buf : List Nat) (magic : Nat) (swap : Bool) : GlobalHeader :=
  { magic := magic
    versionMajor := read16 swap buf 4
    versionMinor := read16 swap buf 6
    thisZone := read32 swap buf 8
    sigFigs := read32 swap buf 12
    snapLen := read32 swap buf 16
    network := read32 swap buf 20
    needsSwap := swap }

/-- `parseGlobalHeader` — the thrown errors of the source are `none`. -/
def parseGlobalHeader (buf : List Nat) : Option GlobalHeader :=
  if buf.length < 24 then none
  else
    let magic := readUInt32LE buf 0
    if magic = PCAP_MAGIC_NATIVE then some (mkGlobalHeader buf magic false)
    else if magic = PCAP_MAGIC_SWAPPED then some (mkGlobalHeader buf magic true)
    else none

structure PcapRecordHeader where
  tsSec : Nat
  tsUsec : Nat
  inclLen : Nat
  origLen : Nat
deriving DecidableEq, Repr

structure PcapPacket where
  header : PcapRecordHeader
  data : List Nat
deriving DecidableEq, Repr

/-- `parsePacketHeader` — `none` models the end-of-file return. -/
def parsePacketHeader (buf : List Nat) (offset : Nat) (swap : Bool) :
    Option PcapRecordHeader :=
  if offset + 16 > buf.length then none
  else some { tsSec := read32 swap buf offset
              tsUsec := read32 swap buf (offset + 4)
              inclLen := read32 swap buf (offset + 8)
              origLen := read32 swap buf (offset + 12) }

/-- The record-reading `while` loop of `parsePcapFile`, with the mutable
`offset` and `packets` accumulator made explicit and a fuel argument for
termination; `parsePcapFile` supplies fuel that can never run out. -/
def parsePacketsLoop (buf : List Nat) (swap : Bool) (snapLen : Nat) :
    Nat → Nat → List PcapPacket → List PcapPacket
  | 0, _, acc => acc
  | fuel + 1, offset, acc =>
    if offset < buf.length then
      match parsePacketHeader buf offset swap with
      | none => acc
      | some ph =>
        if ph.inclLen > snapLen ∨ ph.inclLen > 65535 then acc
        else if offset + 16 + ph.inclLen > buf.length then acc
        else
          parsePacketsLoop buf swap snapLen fuel (offset + 16 + ph.inclLen)
            (acc ++ [{ header := ph, data := bufSlice buf (offset + 16) ph.inclLen }])
    else acc

structure PcapFileHeaderOut where
  version : String
  snapLen : Nat
  linkType : Nat
  linkTypeName : String
deriving DecidableEq, Repr

/-- `parsePcapFile`, starting from the already-read file bytes. -/
def parsePcapFile (buf : List Nat) : Option (PcapFileHeaderOut × List PcapPacket) :=
  match parseGlobalHeader buf with
  | none => none
  | some gh =>
    let pkts := parsePacketsLoop buf gh.needsSwap gh.snapLen buf.length 24 []
    some ({ version := toString gh.versionMajor ++ "." ++ toString gh.versionMinor
            snapLen := gh.snapLen
            linkType := gh.network
            linkTypeName :=
              if gh.network = 1 then "Ethernet"
              else "Unknown(" ++ toString gh.network ++ ")" },
          pkts)

/-- The fixed 24-byte global header written by `writePcapFile`. -/
def pcapGlobalHeaderBytes : List Nat :=
  write32LE PCAP_MAGIC_NATIVE ++ write16LE 2 ++ write16LE 4 ++
    write32LE 0 ++ write32LE 0 ++ write32LE 65535 ++ write32LE 1

/-- The 16-byte record header written by `writePcapFile`: captured and
original length are both the record's actual byte length. -/
def encodeRecordHeader (p : PcapPacket) : List Nat :=
  write32LE p.header.tsSec ++ write32LE p.header.tsUsec ++
    write32LE p.data.length ++ write32LE p.data.length

/-- One record as written by `writePcapFile`: header then raw bytes. -/
def encodeRecord (p : PcapPacket) : List Nat :=
  encodeRecordHeader p ++ p.data

def encodeRecords : List PcapPacket → List Nat
  | [] => []
  | p :: rs => encodeRecord p ++ encodeRecords rs

/-- `writePcapFile`, producing the output file bytes. -/
def writePcapFile (pkts : List PcapPacket) : List Nat :=
  pcapGlobalHeaderBytes ++ encodeRecords pkts

/-! ### Header dissector (`packetParser.js`) -/

/-- One lower-case hex digit, as produced by `Number.toString(16)`. -/
def hexDigit (n : Nat) : Char :=
  if n < 10 then Char.ofNat (48 + n) else Char.ofNat (87 + n)

/-- A byte as two lower-case hex digits, zero-padded (`toString(16).padStart`). -/
def byteHex (b : Nat) : String :=
  String.mk [hexDigit (b / 16 % 16), hexDigit (b % 16)]

/-- `parseMac`: six bytes rendered as colon-separated hex pairs. -/
def parseMac (buf : List Nat) (off : Nat) : String :=
  String.intercalate ":"
    [byteHex (readUInt8 buf off), byteHex (readUInt8 buf (off + 1)),
     byteHex (readUInt8 buf (off + 2)), byteHex (readUInt8 buf (off + 3)),
     byteHex (readUInt8 buf (off + 4)), byteHex (readUInt8 buf (off + 5))]

/-- `parseIPv4`: four bytes rendered dotted-decimal. -/
def parseIPv4 (buf : List Nat) (off : Nat) : String :=
  toString (readUInt8 buf off) ++ "." ++ toString (readUInt8 buf (off + 1)) ++ "." ++
    toString (readUInt8 buf (off + 2)) ++ "." ++ toString (readUInt8 buf (off + 3))

/-- `decodeTcpFlags`: the six named flag bits pushed in source order
SYN, ACK, FIN, RST, PSH, URG, space-joined, with a "none" fallback. -/
def decodeTcpFlags (flags : Nat) : String :=
  let parts : List String :=
    (if flags.land 0x02 ≠ 0 then ["SYN"] else []) ++
    (if flags.land 0x10 ≠ 0 then ["ACK"] else []) ++
    (if flags.land 0x01 ≠ 0 then ["FIN"] else []) ++
    (if flags.land 0x04 ≠ 0 then ["RST"] else []) ++
    (if flags.land 0x08 ≠ 0 then ["PSH"] else []) ++
    (if flags.land 0x20 ≠ 0 then ["URG"] else [])
  if parts.length > 0 then String.intercalate " " parts else "none"

/-- `protocolName`. -/
def protocolName (num : Nat) : String :=
  if num = 1 then "ICMP"
  else if num = 6 then "TCP"
  else if num = 17 then "UDP"
  else "Unknown(" ++ toString num ++ ")"

structure EthHeader where
  destMac : String
  srcMac : String
  etherType : Nat
deriving DecidableEq, Repr

/-- `parseEthernet` (14 bytes). -/
def parseEthernet (data : List Nat) : Option EthHeader :=
  if data.length < 14 then none
  else some { destMac := parseMac data 0
              srcMac := parseMac data 6
              etherType := readUInt16BE data 12 }

structure IPv4Header where
  version : Nat
  headerLen : Nat
  ttl : Nat
  protocol : Nat
  protocolName : String
  srcIp : String
  destIp : String
  totalLength : Nat
deriving DecidableEq, Repr

/-- `parseIPv4Header` (20+ bytes). -/
def parseIPv4Header (data : List Nat) (offset : Nat) : Option IPv4Header :=
  if data.length < offset + 20 then none
  else
    let versionIhl := readUInt8 data offset
    let version := (versionIhl.shiftRight 4).land 0x0f
    let ihl := versionIhl.land 0x0f
    let headerLen := ihl * 4
    if version ≠ 4 then none
    else if data.length < offset + headerLen then none
    else some { version := version
                headerLen := headerLen
                ttl := readUInt8 data (offset + 8)
                protocol := readUInt8 data (offset + 9)
                protocolName := protocolName (readUInt8 data (offset + 9))
                srcIp := parseIPv4 data (offset + 12)
                destIp := parseIPv4 data (offset + 16)
                totalLength := readUInt16BE data (offset + 2) }

structure TcpHeader where
  srcPort : Nat
  destPort : Nat
  seqNumber : Nat
  ackNumber : Nat
  headerLen : Nat
  flags : Nat
  flagsStr : String
  window : Nat
deriving DecidableEq, Repr

/-- `parseTCP` (20+ bytes). -/
def parseTCP (data : List Nat) (offset : Nat) : Option TcpHeader :=
  if data.length < offset + 20 then none
  else
    let dataOffset := ((readUInt8 data (offset + 12)).shiftRight 4).land 0x0f
    let headerLen := dataOffset * 4
    let flags := readUInt8 data (offset + 13)
    if headerLen < 20 ∨ data.length < offset + headerLen then none
    else some { srcPort := readUInt16BE data offset
                destPort := readUInt16BE data (offset + 2)
                seqNumber := readUInt32BE data (offset + 4)
                ackNumber := readUInt32BE data (offset + 8)
                headerLen := headerLen
                flags := flags
                flagsStr := decodeTcpFlags flags
                window := readUInt16BE data (offset + 14) }

structure UdpHeader where
  srcPort : Nat
  destPort : Nat
  length : Nat
  headerLen : Nat
deriving DecidableEq, Repr

/-- `parseUDP` (8 bytes). -/
def parseUDP (data : List Nat) (offset : Nat) : Option UdpHeader :=
  if data.length < offset + 8 then none
  else some { srcPort := readUInt16BE data offset
              destPort := readUInt16BE data (offset + 2)
              length := readUInt16BE data (offset + 4)
              headerLen := 8 }

structure ParsedPacket where
  index : Nat
  /-- The PCAP record timestamp as raw (seconds, microseconds); the
  source renders it as an ISO date string, a presentation detail. -/
  timestamp : Option (Nat × Nat)
  length : Nat
  srcMac : String
  destMac : String
  srcIp : String
  destIp : String
  protocol : Nat
  protocolName : String
  ttl : Nat
  srcPort : Nat
  destPort : Nat
  tcpFlags : Option String
  payloadOffset : Nat
  payloadLength : Nat
  fiveTuple : String
deriving DecidableEq, Repr

/-- The string-joined five-tuple flow key. -/
def fiveTupleKey (srcIp : String) (srcPort : Nat) (destIp : String)
    (destPort : Nat) (protocol : Nat) : String :=
  srcIp ++ ":" ++ toString srcPort ++ "-" ++ destIp ++ ":" ++
    toString destPort ++ "-" ++ toString protocol

/-- `parsePacket`: full Ethernet / IPv4 / transport dissection. -/
def parsePacket (data : List Nat) (index : Nat)
    (pktHeader : Option PcapRecordHeader) : Option ParsedPacket :=
  match parseEthernet data with
  | none => none
  | some eth =>
    if eth.etherType ≠ 0x0800 then none
    else
      match parseIPv4Header data 14 with
      | none => none
      | some ip =>
        let offset := 14 + ip.headerLen
        let build : Nat → Nat → Option String → Nat → Option ParsedPacket :=
          fun srcPort destPort tcpFlags payloadOffset =>
            some { index := index
                   timestamp := pktHeader.map (fun h => (h.tsSec, h.tsUsec))
                   length := data.length
                   srcMac := eth.srcMac
                   destMac := eth.destMac
                   srcIp := ip.srcIp
                   destIp := ip.destIp
                   protocol := ip.protocol
                   protocolName := ip.protocolName
                   ttl := ip.ttl
                   srcPort := srcPort
                   destPort := destPort
                   tcpFlags := tcpFlags
                   payloadOffset := payloadOffset
                   payloadLength := data.length - payloadOffset
                   fiveTuple := fiveTupleKey ip.srcIp srcPort ip.destIp destPort ip.protocol }
        if ip.protocol = 6 then
          match parseTCP data offset with
          | none => none
          | some t => build t.srcPort t.destPort (some t.flagsStr) (offset + t.headerLen)
        else if ip.protocol = 17 then
          match parseUDP data offset with
          | none => none
          | some u => build u.srcPort u.destPort none (offset + u.headerLen)
        else
          build 0 0 none offset

/-! ### DPI engine (`dpiEngine.js`) -/

/-- JS string truthiness for a nullable string: `null` and the empty
string are falsy, everything else truthy. -/
def optTruthy : Option String → Bool
  | none => false
  | some s => s ≠ ""

/-- ASCII decoding of a byte range, as `buffer.toString` with the
`ascii` encoding: every byte is masked to 7 bits. -/
def asciiChars (buf : List Nat) (start len : Nat) : List Char :=
  (bufSlice buf start len).map (fun b => Char.ofNat (b.land 0x7f))

def asciiDecode (buf : List Nat) (start len : Nat) : String :=
  String.mk (asciiChars buf start len)

/-- Substring test on character lists (JS `String.includes`). -/
def hasSubstr (p : List Char) : List Char → Bool
  | [] => p.isEmpty
  | c :: t => p.isPrefixOf (c :: t) || hasSubstr p t

def strIncludes (s pat : String) : Bool := hasSubstr pat.toList s.toList

/-- JS `toLowerCase`, character by character (the inputs here are
7-bit ASCII, where lower-casing is the basic-latin mapping). -/
def toLowerStr (s : String) : String := String.mk (s.toList.map Char.toLower)

/-- The ordered `DOMAIN_PATTERNS` fragment table. -/
def DOMAIN_PATTERNS : List (String × String) :=
  [("youtube", "YouTube"), ("googlevideo", "YouTube"), ("ytimg", "YouTube"),
   ("facebook", "Facebook"), ("fbcdn", "Facebook"),
   ("instagram", "Instagram"), ("cdninstagram", "Instagram"),
   ("netflix", "Netflix"), ("nflxvideo", "Netflix"),
   ("twitter", "Twitter/X"), ("twimg", "Twitter/X"),
   ("amazon", "Amazon"), ("amazonaws", "Amazon"),
   ("github", "GitHub"), ("githubusercontent", "GitHub"),
   ("discord", "Discord"), ("discordapp", "Discord"),
   ("zoom", "Zoom"), ("telegram", "Telegram"),
   ("tiktok", "TikTok"), ("tiktokcdn", "TikTok"),
   ("spotify", "Spotify"), ("scdn", "Spotify"),
   ("cloudflare", "Cloudflare"),
   ("microsoft", "Microsoft"), ("windows", "Microsoft"), ("live.com", "Microsoft"),
   ("apple", "Apple"), ("icloud", "Apple"),
   ("whatsapp", "WhatsApp"), ("linkedin", "LinkedIn"),
   ("reddit", "Reddit"), ("redd.it", "Reddit"),
   ("stackoverflow", "StackOverflow"),
   ("google", "Google"), ("gstatic", "Google"), ("googleapis", "Google")]

/-- `classifyDomain`: lower-case the name, first matching fragment wins. -/
def classifyDomain (domain : String) : String :=
  if domain = "" then "Unknown"
  else
    let lower := toLowerStr domain
    match DOMAIN_PATTERNS.find? (fun p => strIncludes lower p.1) with
    | some p => p.2
    | none => "Unknown"

/-- `isTLSClientHello`. -/
def isTLSClientHello (payload : List Nat) (offset length : Nat) : Bool :=
  if length < 9 then false
  else if readUInt8 payload offset ≠ 0x16 then false
  else
    let version := readUInt16BE payload (offset + 1)
    if version < 0x0300 ∨ version > 0x0304 then false
    else
      let recordLen := readUInt16BE payload (offset + 3)
      if recordLen > length - 5 then false
      else if readUInt8 payload (offset + 5) ≠ 0x01 then false
      else true

/-- The extension-scanning `while` loop of `extractSNI`; every `break`
of the source returns `none` here. -/
def sniExtLoop (payload : List Nat) (extensionsEnd : Nat) :
    Nat → Nat → Option String
  | 0, _ => none
  | fuel + 1, offset =>
    if offset + 4 ≤ extensionsEnd then
      let extType := readUInt16BE payload offset
      let extLen := readUInt16BE payload (offset + 2)
      let afterHdr := offset + 4
      if afterHdr + extLen > extensionsEnd then none
      else if extType = 0 then
        if extLen < 5 then none
        else if readUInt8 payload (afterHdr + 2) ≠ 0 then none
        else
          let sniLen := readUInt16BE payload (afterHdr + 3)
          if sniLen > extLen - 5 then none
          else some (asciiDecode payload (afterHdr + 5) sniLen)
      else sniExtLoop payload extensionsEnd fuel (afterHdr + extLen)
    else none

/-- `extractSNI`: the ClientHello walk. -/
def extractSNI (payload : List Nat) (payloadOffset payloadLength : Nat) :
    Option String :=
  if ¬ isTLSClientHello payload payloadOffset payloadLength then none
  else
    let stop := payloadOffset + payloadLength
    -- skip record header (5), handshake header (4), client version (2), random (32)
    let o1 := payloadOffset + 5 + 4 + 2 + 32
    if o1 ≥ stop then none
    else
      let sessionIdLen := readUInt8 payload o1
      let o2 := o1 + 1 + sessionIdLen
      if o2 + 2 > stop then none
      else
        let cipherSuitesLen := readUInt16BE payload o2
        let o3 := o2 + 2 + cipherSuitesLen
        if o3 ≥ stop then none
        else
          let compMethodsLen := readUInt8 payload o3
          let o4 := o3 + 1 + compMethodsLen
          if o4 + 2 > stop then none
          else
            let extensionsLen := readUInt16BE payload o4
            let o5 := o4 + 2
            let extensionsEnd := min (o5 + extensionsLen) stop
            sniExtLoop payload extensionsEnd (payloadLength + 1) o5

/-- `isHTTPRequest`: the first four payload bytes spell a known method. -/
def isHTTPRequest (payload : List Nat) (offset length : Nat) : Bool :=
  if length < 4 then false
  else ["GET ", "POST", "PUT ", "HEAD", "DELE", "PATC", "OPTI"].contains
    (asciiDecode payload offset 4)

/-- The JS `\s` whitespace class, restricted to the 7-bit range that
`ascii` decoding can produce. -/
def jsWhitespace (c : Char) : Bool :=
  c = ' ' || c = '\t' || c = '\n' || c = '\r' ||
    c = Char.ofNat 11 || c = Char.ofNat 12

def isCrlfChar (c : Char) : Bool := c = '\r' || c = '\n'

/-- Largest index `j` at or below the given bound whose character is
neither CR nor LF: the backtracking point of the greedy whitespace run. -/
def greatestNonCrlf (t : List Char) : Nat → Option Nat
  | 0 =>
    match t.get? 0 with
    | some c => if isCrlfChar c then none else some 0
    | none => none
  | j + 1 =>
    match t.get? (j + 1) with
    | some c => if isCrlfChar c then greatestNonCrlf t j else some (j + 1)
    | none => greatestNonCrlf t j

/-- The tail of the Host regex: greedy optional whitespace, then a
non-empty capture running to end-of-line. -/
def hostCapture (t : List Char) : Option (List Char) :=
  let w := (t.takeWhile jsWhitespace).length
  match greatestNonCrlf t w with
  | none => none
  | some j => some ((t.drop j).takeWhile (fun c => ¬ isCrlfChar c))

/-- Leftmost match of the source regex: the header name accepts exactly
the spellings starting with an upper- or lower-case h followed by
lower-case "ost:". -/
def findHostCapture : List Char → Option (List Char)
  | [] => none
  | c :: rest =>
    if (c = 'H' || c = 'h') && "ost:".toList.isPrefixOf rest then
      match hostCapture (rest.drop 4) with
      | some cap => some cap
      | none => findHostCapture rest
    else findHostCapture rest

/-- JS `String.trim` on a character list. -/
def trimChars (l : List Char) : List Char :=
  ((l.dropWhile jsWhitespace).reverse.dropWhile jsWhitespace).reverse

/-- `extractHTTPHost`: decode up to 2048 bytes, regex-search for the
Host header, trim, and keep everything before the first colon (the
source substring at `indexOf` is the same whether or not a colon exists). -/
def extractHTTPHost (payload : List Nat) (payloadOffset payloadLength : Nat) :
    Option String :=
  if ¬ isHTTPRequest payload payloadOffset payloadLength then none
  else
    let httpStr := asciiChars payload payloadOffset (min payloadLength 2048)
    match findHostCapture httpStr with
    | none => none
    | some cap =>
      let host := trimChars cap
      some (String.mk (host.takeWhile (fun c => c ≠ ':')))

/-- The label-reading `while` loop of `extractDNSQuery`. -/
def dnsLabelLoop (payload : List Nat) (stop : Nat) :
    Nat → Nat → List String → List String
  | 0, _, labels => labels
  | fuel + 1, offset, labels =>
    if offset < stop then
      let labelLen := readUInt8 payload offset
      if labelLen = 0 then labels
      else if labelLen > 63 then labels
      else if offset + 1 + labelLen > stop then labels
      else dnsLabelLoop payload stop fuel (offset + 1 + labelLen)
        (labels ++ [asciiDecode payload (offset + 1) labelLen])
    else labels

/-- `extractDNSQuery`. -/
def extractDNSQuery (payload : List Nat) (payloadOffset payloadLength : Nat) :
    Option String :=
  if payloadLength < 12 then none
  else
    let flags := readUInt8 payload (payloadOffset + 2)
    if flags.land 0x80 ≠ 0 then none
    else
      let qdCount := readUInt16BE payload (payloadOffset + 4)
      if qdCount = 0 then none
      else
        let labels := dnsLabelLoop payload (payloadOffset + payloadLength)
          (payloadLength + 1) (payloadOffset + 12) []
        if labels.length > 0 then some (String.intercalate "." labels) else none

structure DpiResult where
  sni : Option String
  appType : String
  dnsQuery : Option String
deriving DecidableEq, Repr

/-- `inspect`: TLS SNI, then HTTP Host, then DNS, then port fallback.
The sequential early returns of the source become nested branches; the
mutable `sni` variable is threaded so that a falsy extraction result
(empty string) still reaches the final fallback return, as in the source. -/
def inspect (rawData : List Nat) (p : ParsedPacket) : DpiResult :=
  if p.payloadLength = 0 then
    { sni := none
      appType :=
        if p.destPort = 443 then "HTTPS"
        else if p.destPort = 80 then "HTTP"
        else if p.destPort = 53 ∨ p.srcPort = 53 then "DNS"
        else "Unknown"
      dnsQuery := none }
  else
    let sni1 : Option String :=
      if p.protocol = 6 ∧ p.destPort = 443 ∧ 5 < p.payloadLength then
        extractSNI rawData p.payloadOffset p.payloadLength
      else none
    if optTruthy sni1 then
      let a := classifyDomain (sni1.getD "")
      { sni := sni1, appType := if a = "Unknown" then "HTTPS" else a, dnsQuery := none }
    else
      let sni2 : Option String :=
        if p.protocol = 6 ∧ p.destPort = 80 ∧ 10 < p.payloadLength then
          extractHTTPHost rawData p.payloadOffset p.payloadLength
        else sni1
      if optTruthy sni2 then
        let a := classifyDomain (sni2.getD "")
        { sni := sni2, appType := if a = "Unknown" then "HTTP" else a, dnsQuery := none }
      else if p.protocol = 17 ∧ (p.destPort = 53 ∨ p.srcPort = 53) then
        let q := extractDNSQuery rawData p.payloadOffset p.payloadLength
        { sni := q, appType := "DNS", dnsQuery := q }
      else
        { sni := sni2
          appType :=
            if p.destPort = 443 then "HTTPS"
            else if p.destPort = 80 then "HTTP"
            else "Unknown"
          dnsQuery := none }

/-! ### Block rules and the analysis pipeline (`analysisService.js`) -/

structure BlockRule where
  type : String
  value : String
  active : Bool
deriving DecidableEq, Repr

/-- One iteration body of the rule loop shared by `isBlocked` in the
analysis service and the inline loop of the export route. -/
def ruleMatches (parsed : ParsedPacket) (dpi : DpiResult) (r : BlockRule) : Bool :=
  r.active &&
    (if r.type = "ip" then
       parsed.srcIp = r.value || parsed.destIp = r.value
     else if r.type = "domain" then
       optTruthy dpi.sni &&
         strIncludes (toLowerStr (dpi.sni.getD "")) (toLowerStr r.value)
     else if r.type = "app" then
       toLowerStr dpi.appType = toLowerStr r.value
     else false)

/-- `isBlocked`: first matching active rule wins. -/
def isBlocked (parsed : ParsedPacket) (dpi : DpiResult)
    (rules : List BlockRule) : Bool :=
  rules.any (ruleMatches parsed dpi)

structure Flow where
  fiveTuple : String
  srcIp : String
  destIp : String
  srcPort : Nat
  destPort : Nat
  protocol : String
  sni : String
  appType : String
  packets : Nat
  bytes : Nat
  blocked : Bool
deriving DecidableEq, Repr

structure PacketSummary where
  index : Nat
  timestamp : Option (Nat × Nat)
  length : Nat
  srcIp : String
  destIp : String
  srcPort : Nat
  destPort : Nat
  protocol : Nat
  protocolName : String
  tcpFlags : Option String
  sni : String
  appType : String
  blocked : Bool
deriving DecidableEq, Repr

/-- Lookup in the flow table (a JS object keyed by five-tuple, modelled
as an insertion-ordered association list). -/
def lookupFlow (flows : List (String × Flow)) (k : String) : Option Flow :=
  (flows.find? (fun e => e.1 = k)).map (fun e => e.2)

/-- Store a flow under its key: replace in place when present (object
mutation), append otherwise (property creation). -/
def setFlow (flows : List (String × Flow)) (k : String) (f : Flow) :
    List (String × Flow) :=
  match flows.find? (fun e => e.1 = k) with
  | some _ => flows.map (fun e => if e.1 = k then (k, f) else e)
  | none => flows ++ [(k, f)]

/-- Increment a counter object entry, creating it at 1 when absent. -/
def bumpCount (m : List (String × Nat)) (k : String) : List (String × Nat) :=
  match m.find? (fun e => e.1 = k) with
  | some _ => m.map (fun e => if e.1 = k then (e.1, e.2 + 1) else e)
  | none => m ++ [(k, 1)]

/-- The per-run mutable state of the `runAnalysis` packet loop. -/
structure RunState where
  flows : List (String × Flow)
  appCounts : List (String × Nat)
  protocolCounts : List (String × Nat)
  detectedDomains : List (String × String)
  packetSummaries : List PacketSummary
  totalBytes : Nat
  tcpCount : Nat
  udpCount : Nat
  otherCount : Nat
  parsedCount : Nat
  forwarded : Nat
  dropped : Nat
deriving Repr

def initRunState : RunState :=
  { flows := [], appCounts := [], protocolCounts := [], detectedDomains := []
    packetSummaries := [], totalBytes := 0, tcpCount := 0, udpCount := 0
    otherCount := 0, parsedCount := 0, forwarded := 0, dropped := 0 }

/-- The flow create-or-update of one loop iteration: look up or create
the record's flow, count the packet into it, adopt the first truthy DPI
name and label, evaluate rules on the effective name/label (the flow's
adopted name wins over the packet's own), and set the sticky blocked
flag. Returns the stored flow and the per-packet verdict. -/
def packetFlowState (rules : List BlockRule) (flows : List (String × Flow))
    (parsed : ParsedPacket) (dpi : DpiResult) (dataLen : Nat) : Flow × Bool :=
  let flow0 :=
    match lookupFlow flows parsed.fiveTuple with
    | some f => f
    | none =>
      { fiveTuple := parsed.fiveTuple, srcIp := parsed.srcIp
        destIp := parsed.destIp, srcPort := parsed.srcPort
        destPort := parsed.destPort, protocol := parsed.protocolName
        sni := dpi.sni.getD "", appType := dpi.appType
        packets := 0, bytes := 0, blocked := false }
  let flow1 := { flow0 with packets := flow0.packets + 1
                            bytes := flow0.bytes + dataLen }
  let flow2 :=
    if optTruthy dpi.sni ∧ flow1.sni = "" then
      { flow1 with sni := dpi.sni.getD "", appType := dpi.appType }
    else flow1
  let effDpi := { dpi with
    sni := if flow2.sni ≠ "" then some flow2.sni else dpi.sni
    appType := if flow2.appType ≠ "" then flow2.appType else dpi.appType }
  let blocked := isBlocked parsed effDpi rules
  let flow3 := if blocked then { flow2 with blocked := true } else flow2
  (flow3, blocked)

/-- One iteration of the `runAnalysis` packet loop for packet `i`:
dissect, count, inspect, create-or-update the flow through
`packetFlowState`, and update verdict counters, histograms and the
capped summary list. -/
def analysisStep (rules : List BlockRule) (s : RunState)
    (ipkt : Nat × PcapPacket) : RunState :=
  match parsePacket ipkt.2.data ipkt.1 (some ipkt.2.header) with
  | none => s
  | some parsed =>
    let data := ipkt.2.data
    let dpi := inspect data parsed
    let fb := packetFlowState rules s.flows parsed dpi data.length
    let flow3 := fb.1
    let blocked := fb.2
    let app := if flow3.appType ≠ "" then flow3.appType else dpi.appType
    { flows := setFlow s.flows parsed.fiveTuple flow3
      appCounts := bumpCount s.appCounts app
      protocolCounts := bumpCount s.protocolCounts parsed.protocolName
      detectedDomains :=
        if optTruthy dpi.sni ∧
            (s.detectedDomains.find? (fun d => d.1 = dpi.sni.getD "")).isNone then
          s.detectedDomains ++ [(dpi.sni.getD "", dpi.appType)]
        else s.detectedDomains
      packetSummaries :=
        if s.packetSummaries.length < 5000 then
          s.packetSummaries ++
            [{ index := ipkt.1, timestamp := parsed.timestamp
               length := parsed.length, srcIp := parsed.srcIp
               destIp := parsed.destIp, srcPort := parsed.srcPort
               destPort := parsed.destPort, protocol := parsed.protocol
               protocolName := parsed.protocolName, tcpFlags := parsed.tcpFlags
               sni := if optTruthy dpi.sni then dpi.sni.getD ""
                      else if flow3.sni ≠ "" then flow3.sni else ""
               appType := app, blocked := blocked }]
        else s.packetSummaries
      totalBytes := s.totalBytes + data.length
      tcpCount := if parsed.protocol = 6 then s.tcpCount + 1 else s.tcpCount
      udpCount := if parsed.protocol ≠ 6 ∧ parsed.protocol = 17 then
          s.udpCount + 1 else s.udpCount
      otherCount := if parsed.protocol ≠ 6 ∧ parsed.protocol ≠ 17 then
          s.otherCount + 1 else s.otherCount
      parsedCount := s.parsedCount + 1
      forwarded := if blocked then s.forwarded else s.forwarded + 1
      dropped := if blocked then s.dropped + 1 else s.dropped }

/-- The state reached after the first `n` packets of the run. -/
def runAnalysisPrefix (packets : List PcapPacket) (rules : List BlockRule)
    (n : Nat) : RunState :=
  (packets.enum.take n).foldl (analysisStep rules) initRunState

/-- The full packet loop of `runAnalysis`. -/
def runAnalysisFold (packets : List PcapPacket) (rules : List BlockRule) :
    RunState :=
  packets.enum.foldl (analysisStep rules) initRunState

/-! ### Filtered export (`routes/analysis.js`, export handler) -/

/-- The packet loop of the export route: unparseable records are kept,
every other record is kept unless its own per-packet rule evaluation
blocks it; kept records are pushed in file order. -/
def exportFilterLoop (rules : List BlockRule) :
    List (Nat × PcapPacket) → List PcapPacket → List PcapPacket
  | [], acc => acc
  | ipkt :: rest, acc =>
    match parsePacket ipkt.2.data ipkt.1 (some ipkt.2.header) with
    | none => exportFilterLoop rules rest (acc ++ [ipkt.2])
    | some parsed =>
      let dpi := inspect ipkt.2.data parsed
      if isBlocked parsed dpi rules then exportFilterLoop rules rest acc
      else exportFilterLoop rules rest (acc ++ [ipkt.2])

def exportFilter (packets : List PcapPacket) (rules : List BlockRule) :
    List PcapPacket :=
  exportFilterLoop rules packets.enum []

/-! ### Specification-side characterisations -/

/-- The named TCP flags with their bit masks, in the fixed presentation
order SYN, ACK, FIN, RST, PSH, URG required by the specification. -/
def tcpFlagTable : List (String × Nat) :=
  [("SYN", 0x02), ("ACK", 0x10), ("FIN", 0x01), ("RST", 0x04),
   ("PSH", 0x08), ("URG", 0x20)]

/-- The list of exactly the named flags set in a flag byte, in the
fixed order of `tcpFlagTable`. -/
def specFlagList (flags : Nat) : List String :=
  (tcpFlagTable.filter (fun e => flags.land e.2 ≠ 0)).map (fun e => e.1)

/-- The IPv4 version nibble of the byte at `offset`. -/
def ipVersionOf (data : List Nat) (offset : Nat) : Nat :=
  ((readUInt8 data offset).shiftRight 4).land 0x0f

/-- The IPv4 header length encoded by the IHL nibble (IHL × 4). -/
def ipIhlLen (data : List Nat) (offset : Nat) : Nat :=
  ((readUInt8 data offset).land 0x0f) * 4

/-- The export route's per-record keep decision: a record is retained
when its packet fails dissection or matches no active rule; the index
passed to the dissector does not influence the decision. -/
def exportKeep (rules : List BlockRule) (pkt : PcapPacket) : Bool :=
  match parsePacket pkt.data 0 (some pkt.header) with
  | none => true
  | some parsed => !(isBlocked parsed (inspect pkt.data parsed) rules)

/-- A record as the encoder rewrites it: timestamps reduced to 32 bits,
captured and original length both set to the actual byte count, payload
bytes untouched. -/
def normRecord (p : PcapPacket) : PcapPacket :=
  { header := { tsSec := p.header.tsSec % 4294967296
                tsUsec := p.header.tsUsec % 4294967296
                inclLen := p.data.length
                origLen := p.data.length }
    data := p.data }

/-! ### Sub-parser bound lemmas -/

/-! ### Concrete inputs used by witnesses and counterexamples,
and auxiliary definitions referenced by the proofs below -/

/-- C5, counterexample: a 34-byte packet whose IPv4 byte is 0x41
(version 4, IHL 1, header length 4 < 20) with protocol ICMP. -/
def c5Packet : List Nat :=
  [0, 0, 0, 0, 0, 0, 17, 17, 17, 17, 17, 17, 8, 0] ++
  [0x41, 0, 0, 20, 0, 0, 0, 0, 64, 1, 0, 0, 10, 0, 0, 1, 10, 0, 0, 2]

/-- C4, witness input: a 34-byte Ethernet + IPv4 ICMP packet. -/
def c4Packet : List Nat :=
  [0, 0, 0, 0, 0, 0, 17, 17, 17, 17, 17, 17, 8, 0] ++
  [0x45, 0, 0, 20, 0, 0, 0, 0, 64, 1, 0, 0, 10, 0, 0, 1, 10, 0, 0, 2]

/-- C4, witness descriptor: the dissection result for `c4Packet`. -/
def c4Parsed : ParsedPacket :=
  { index := 0, timestamp := none, length := 34
    srcMac := "11:11:11:11:11:11", destMac := "00:00:00:00:00:00"
    srcIp := "10.0.0.1", destIp := "10.0.0.2"
    protocol := 1, protocolName := "ICMP", ttl := 64
    srcPort := 0, destPort := 0, tcpFlags := none
    payloadOffset := 34, payloadLength := 0
    fiveTuple := "10.0.0.1:0-10.0.0.2:0-1" }

/-- C6, witness payload: a 73-byte TLS ClientHello record carrying the
SNI hostname www.example.com. -/
def c6ClientHello : List Nat :=
  [0x16, 0x03, 0x01, 0x00, 0x44, 0x01, 0x00, 0x00, 0x40, 0x03, 0x03] ++
  List.replicate 32 0 ++
  [0x00, 0x00, 0x00, 0x00, 0x00, 0x18, 0x00, 0x00, 0x00, 0x14,
   0x00, 0x12, 0x00, 0x00, 0x0f,
   119, 119, 119, 46, 101, 120, 97, 109, 112, 108, 101, 46, 99, 111, 109]

/-- C6, witness descriptor: a TCP packet to port 443 whose payload is
the whole of `c6ClientHello`. -/
def c6Parsed : ParsedPacket :=
  { index := 0, timestamp := none, length := 73
    srcMac := "11:11:11:11:11:11", destMac := "00:00:00:00:00:00"
    srcIp := "10.0.0.1", destIp := "10.0.0.2"
    protocol := 6, protocolName := "TCP", ttl := 64
    srcPort := 49152, destPort := 443, tcpFlags := some "ACK"
    payloadOffset := 0, payloadLength := 73
    fiveTuple := "10.0.0.1:49152-10.0.0.2:443-6" }

/-- C2, witness buffer: a valid global header, one good 3-byte record,
then a record header declaring captured length 70000. -/
def c2Buf : List Nat :=
  pcapGlobalHeaderBytes ++
  [0, 0, 0, 0, 0, 0, 0, 0, 3, 0, 0, 0, 3, 0, 0, 0] ++ [1, 2, 3] ++
  [0, 0, 0, 0, 0, 0, 0, 0, 0x70, 0x11, 1, 0, 0, 0, 0, 0]

/-- C2, witness record: the good record decoded before the bad header. -/
def c2Good : PcapPacket :=
  { header := { tsSec := 0, tsUsec := 0, inclLen := 3, origLen := 3 }
    data := [1, 2, 3] }

/-- C8, counterexample: the claim says the Host search is
case-insensitive for any casing of the header name; this HTTP request
carries the header spelled HOST: and extraction finds nothing. -/
def c8CexBytes : List Nat :=
  [71, 69, 84, 32, 47, 32, 72, 84, 84, 80, 47, 49, 46, 49, 13, 10,
   72, 79, 83, 84, 58, 32, 97, 46, 99, 111, 109, 13, 10, 13, 10]

/-- C8, witness request: an HTTP request containing no Host header in
either accepted spelling (only the upper-case HOST: variant). -/
def c8NoHostBytes : List Nat := c8CexBytes

/-- C8, witness request with a port suffix in the Host value. -/
def c8PortBytes : List Nat :=
  [71, 69, 84, 32, 47, 32, 72, 84, 84, 80, 47, 49, 46, 49, 13, 10,
   72, 111, 115, 116, 58, 32, 97, 46, 99, 111, 109, 58, 56, 48, 13, 10, 13, 10]

/-- A UDP packet from 10.0.0.1:5353 to 8.8.8.8:53 carrying a DNS query
for netflix.com. -/
def dnsQueryPacketBytes : List Nat :=
  [0, 0, 0, 0, 0, 0, 17, 17, 17, 17, 17, 17, 8, 0] ++
  [0x45, 0, 0, 0, 0, 0, 0, 0, 64, 17, 0, 0, 10, 0, 0, 1, 8, 8, 8, 8] ++
  [20, 233, 0, 53, 0, 0, 0, 0] ++
  [0, 0, 0, 0, 0, 1, 0, 0, 0, 0, 0, 0] ++
  [7, 110, 101, 116, 102, 108, 105, 120, 3, 99, 111, 109, 0]

/-- A payload-less UDP packet on the same five-tuple. -/
def emptyUdpPacketBytes : List Nat :=
  [0, 0, 0, 0, 0, 0, 17, 17, 17, 17, 17, 17, 8, 0] ++
  [0x45, 0, 0, 0, 0, 0, 0, 0, 64, 17, 0, 0, 10, 0, 0, 1, 8, 8, 8, 8] ++
  [20, 233, 0, 53, 0, 0, 0, 0]

def dnsQueryRecord : PcapPacket :=
  { header := { tsSec := 0, tsUsec := 0, inclLen := 67, origLen := 67 }
    data := dnsQueryPacketBytes }

def emptyUdpRecord : PcapPacket :=
  { header := { tsSec := 0, tsUsec := 0, inclLen := 42, origLen := 42 }
    data := emptyUdpPacketBytes }

/-- C7, witness flow: the flow after the first packet has adopted the
DNS name netflix.com. -/
def c7Flow : Flow :=
  { fiveTuple := "10.0.0.1:5353-8.8.8.8:53-17"
    srcIp := "10.0.0.1", destIp := "8.8.8.8"
    srcPort := 5353, destPort := 53, protocol := "UDP"
    sni := "netflix.com", appType := "DNS"
    packets := 1, bytes := 67, blocked := false }

/-- The counter relations maintained by every loop iteration. -/
def runInvariant (s : RunState) : Prop :=
  s.forwarded + s.dropped = s.parsedCount ∧
    s.tcpCount + s.udpCount + s.otherCount = s.parsedCount

/-- The global header produced by re-decoding the encoder's output:
native little-endian magic, version 2.4, snapshot length 65535,
Ethernet link type. -/
def ghWritten : GlobalHeader :=
  { magic := 0xa1b2c3d4, versionMajor := 2, versionMinor := 4
    thisZone := 0, sigFigs := 0, snapLen := 65535, network := 1
    needsSwap := false }

/-- C1, witness container: one 3-byte record behind a clean header. -/
def c1Pkts : List PcapPacket :=
  [{ header := { tsSec := 5, tsUsec := 6, inclLen := 3, origLen := 3 }
     data := [1, 2, 3] }]

/-- C3, counterexample rule set: one active domain rule for netflix. -/
def c3Rules : List BlockRule :=
  [{ type := "domain", value := "netflix", active := true }]

/-- C3, witness container: a record whose packet is too short to carry
an Ethernet header, so dissection fails and it must be retained. -/
def c3wPkts : List PcapPacket :=
  [{ header := { tsSec := 0, tsUsec := 0, inclLen := 3, origLen := 3 }
     data := [1, 2, 3] }]

def c3wShort : PcapPacket :=
  { header := { tsSec := 0, tsUsec := 0, inclLen := 3, origLen := 3 }
    data := [1, 2, 3] }

lemma parseIPv4Header_bounds {data : List Nat} {offset : Nat} {ip : IPv4Header}
    (h : parseIPv4Header data offset = some ip) :
    offset + 20 ≤ data.length ∧ offset + ip.headerLen ≤ data.length := by
  unfold parseIPv4Header at h
  by_cases h1 : data.length < offset + 20
  · simp [h1] at h
  · simp [h1] at h
    obtain ⟨hv, hle, hrec⟩ := h
    subst hrec
    exact ⟨by omega, by simpa using hle⟩

lemma parseTCP_bounds {data : List Nat} {offset : Nat} {t : TcpHeader}
    (h : parseTCP data offset = some t) :
    20 ≤ t.headerLen ∧ offset + t.headerLen ≤ data.length := by
  unfold parseTCP at h
  by_cases h1 : data.length < offset + 20
  · simp [h1] at h
  · simp [h1] at h
    obtain ⟨⟨hge, hle⟩, hrec⟩ := h
    subst hrec
    exact ⟨by simpa using hge, by simpa using hle⟩

lemma parseUDP_bounds {data : List Nat} {offset : Nat} {u : UdpHeader}
    (h : parseUDP data offset = some u) :
    u.headerLen = 8 ∧ offset + 8 ≤ data.length := by
  unfold parseUDP at h
  by_cases h1 : data.length < offset + 8
  · simp [h1] at h
  · simp [h1] at h
    subst h
    exact ⟨rfl, by omega⟩

/-! ### Claim C9 — TCP flag summary -/

/-- C9, counterexample: with no flags set the summary is the literal
string "none", not the space-joined (empty) list of set flags the claim
describes. -/
theorem C9_counterexample :
    decodeTcpFlags 0 ≠ String.intercalate " " (specFlagList 0) := by decide

/-- C9, amended: for every flag byte the summary string is the named
flags that are set, in the fixed order SYN, ACK, FIN, RST, PSH, URG and
joined by single spaces, except that an empty flag set is rendered as
the literal string "none". -/
theorem C9_flag_order (flags : Nat) :
    decodeTcpFlags flags =
      if specFlagList flags = [] then "none"
      else String.intercalate " " (specFlagList flags) := by
  unfold decodeTcpFlags specFlagList tcpFlagTable
  by_cases h1 : flags.land 2 = 0 <;> by_cases h2 : flags.land 16 = 0 <;>
    by_cases h3 : flags.land 1 = 0 <;> by_cases h4 : flags.land 4 = 0 <;>
    by_cases h5 : flags.land 8 = 0 <;> by_cases h6 : flags.land 32 = 0 <;>
    simp [h1, h2, h3, h4, h5, h6, List.filter, String.intercalate]

/-! ### Claim C5 — IPv4 header rejection conditions -/

/-- C5, counterexample: the claim says an IHL-encoded header length
below 20 bytes aborts dissection; this packet has header length 4 and
is dissected successfully. -/
theorem C5_counterexample :
    ipIhlLen c5Packet 14 = 4 ∧ parsePacket c5Packet 0 none ≠ none := by decide

/-- C5, amended: IPv4 header dissection returns null exactly when fewer
than 20 bytes remain at the offset, the version nibble is not 4, or the
IHL-encoded length overruns the buffer; a header length below 20 bytes
is not itself rejected. -/
theorem C5_ipv4_null_iff (data : List Nat) (offset : Nat) :
    parseIPv4Header data offset = none ↔
      data.length < offset + 20 ∨ ipVersionOf data offset ≠ 4 ∨
        data.length < offset + ipIhlLen data offset := by
  unfold parseIPv4Header ipVersionOf ipIhlLen
  by_cases h1 : data.length < offset + 20
  · simp [h1]
  · by_cases h2 : ((readUInt8 data offset).shiftRight 4).land 0x0f ≠ 4
    · simp [h1, h2]
      tauto
    · by_cases h3 : data.length < offset + ((readUInt8 data offset).land 0x0f) * 4
      · simp [h1, h2, h3]
      · simp [h1, h2, h3]

/-! ### Claim C4 — payload bounds and absent transport layer -/

/-- C4: whenever dissection succeeds, payload offset plus payload length
never exceeds the byte length of the record, and a packet whose IP
protocol is neither TCP nor UDP has its payload start at the end of the
IPv4 header with zero ports and no TCP flag summary. -/
theorem C4_payload_invariant (data : List Nat) (i : Nat)
    (hdr : Option PcapRecordHeader) (p : ParsedPacket)
    (h : parsePacket data i hdr = some p) :
    p.payloadOffset + p.payloadLength ≤ data.length ∧
      (p.protocol ≠ 6 → p.protocol ≠ 17 →
        ∃ ip, parseIPv4Header data 14 = some ip ∧
          p.payloadOffset = 14 + ip.headerLen ∧
          p.srcPort = 0 ∧ p.destPort = 0 ∧ p.tcpFlags = none) := by
  unfold parsePacket at h
  cases he : parseEthernet data with
  | none => simp [he] at h
  | some eth =>
    simp only [he] at h
    by_cases hety : eth.etherType ≠ 0x0800
    case pos => rw [if_pos hety] at h; cases h
    rw [if_neg hety] at h
    cases hip : parseIPv4Header data 14 with
    | none => simp [hip] at h
    | some ip =>
      simp only [hip] at h
      have hipb := parseIPv4Header_bounds hip
      by_cases h6 : ip.protocol = 6
      · -- TCP branch
        rw [if_pos h6] at h
        cases ht : parseTCP data (14 + ip.headerLen) with
        | none => simp [ht] at h
        | some t =>
          simp only [ht, Option.some.injEq] at h
          have htb := parseTCP_bounds ht
          subst h
          refine ⟨by simp only; omega, fun hp6 _ => absurd h6 (by simpa using hp6)⟩
      · by_cases h17 : ip.protocol = 17
        · -- UDP branch
          rw [if_neg h6, if_pos h17] at h
          cases hu : parseUDP data (14 + ip.headerLen) with
          | none => simp [hu] at h
          | some u =>
            simp only [hu, Option.some.injEq] at h
            have hub := parseUDP_bounds hu
            subst h
            refine ⟨by simp only; omega, fun _ hp17 => absurd h17 (by simpa using hp17)⟩
        · -- other protocols
          rw [if_neg h6, if_neg h17] at h
          simp only [Option.some.injEq] at h
          subst h
          exact ⟨by simp only; omega, fun _ _ => ⟨ip, rfl, rfl, rfl, rfl, rfl⟩⟩

/-- C4, witness: the invariant evaluated on the concrete ICMP packet. -/
theorem C4_witness :
    c4Parsed.payloadOffset + c4Parsed.payloadLength ≤ c4Packet.length ∧
      (c4Parsed.protocol ≠ 6 → c4Parsed.protocol ≠ 17 →
        ∃ ip, parseIPv4Header c4Packet 14 = some ip ∧
          c4Parsed.payloadOffset = 14 + ip.headerLen ∧
          c4Parsed.srcPort = 0 ∧ c4Parsed.destPort = 0 ∧ c4Parsed.tcpFlags = none) :=
  C4_payload_invariant c4Packet 0 none c4Parsed (by decide)

/-! ### Claim C6 — unrecognized SNI falls back to HTTPS -/

/-- C6: a TCP packet to destination port 443 whose payload yields a
non-empty SNI hostname that the classification table does not recognize
is labelled HTTPS, not Unknown, and the hostname is still reported. -/
theorem C6_sni_fallback (rawData : List Nat) (p : ParsedPacket) (h : String)
    (hp : p.protocol = 6) (hd : p.destPort = 443) (hl : 5 < p.payloadLength)
    (hs : extractSNI rawData p.payloadOffset p.payloadLength = some h)
    (hne : h ≠ "") (hc : classifyDomain h = "Unknown") :
    inspect rawData p = { sni := some h, appType := "HTTPS", dnsQuery := none } := by
  unfold inspect
  have hnz : ¬ (p.payloadLength = 0) := by omega
  rw [if_neg hnz]
  rw [if_pos (⟨hp, hd, hl⟩ : p.protocol = 6 ∧ p.destPort = 443 ∧ 5 < p.payloadLength)]
  rw [hs]
  have htr : optTruthy (some h) = true := by simpa [optTruthy] using hne
  rw [if_pos htr]
  simp [hc]

/-- C6, witness: the spec scenario — SNI www.example.com is extracted,
matches no table entry, and the label falls back to HTTPS. -/
theorem C6_witness :
    inspect c6ClientHello c6Parsed =
      { sni := some "www.example.com", appType := "HTTPS", dnsQuery := none } :=
  C6_sni_fallback c6ClientHello c6Parsed "www.example.com"
    (by decide) (by decide) (by decide) (by decide) (by decide) (by decide)

/-! ### Claim C2 — invalid record length truncates cleanly -/

/-- C2: when the record loop reads a record header whose captured
length exceeds the snapshot length, exceeds 65535, or would read past
the end of the file, it returns exactly the accumulator of previously
decoded records — it stops before that record, keeps everything decoded
so far, and no error value exists on this path. -/
theorem C2_truncation (buf : List Nat) (swap : Bool) (snap fuel offset : Nat)
    (acc : List PcapPacket) (ph : PcapRecordHeader)
    (hfuel : 0 < fuel) (hoff : offset < buf.length)
    (hph : parsePacketHeader buf offset swap = some ph)
    (hbad : ph.inclLen > snap ∨ ph.inclLen > 65535 ∨
      offset + 16 + ph.inclLen > buf.length) :
    parsePacketsLoop buf swap snap fuel offset acc = acc := by
  obtain ⟨f, rfl⟩ : ∃ f, fuel = f + 1 := ⟨fuel - 1, by omega⟩
  unfold parsePacketsLoop
  rw [if_pos hoff]
  simp only [hph]
  by_cases h1 : ph.inclLen > snap ∨ ph.inclLen > 65535
  · rw [if_pos h1]
  · rw [if_neg h1]
    have h2 : offset + 16 + ph.inclLen > buf.length := by
      rcases hbad with h | h | h
      · exact absurd (Or.inl h) h1
      · exact absurd (Or.inr h) h1
      · exact h
    rw [if_pos h2]

/-- C2, witness: at the bad header (offset 43, captured length 70000)
the loop returns exactly the previously decoded records. -/
theorem C2_witness :
    parsePacketsLoop c2Buf false 65535 1 43 [c2Good] = [c2Good] :=
  C2_truncation c2Buf false 65535 1 43 [c2Good]
    { tsSec := 0, tsUsec := 0, inclLen := 70000, origLen := 0 }
    (by decide) (by decide) (by decide) (by decide)

/-! ### Claim C8 — Host header search -/

lemma findHostCapture_none_of_no_host (s : List Char)
    (h1 : hasSubstr "Host:".toList s = false)
    (h2 : hasSubstr "host:".toList s = false) :
    findHostCapture s = none := by
  induction s with
  | nil => rfl
  | cons c t ih =>
    unfold hasSubstr at h1 h2
    simp only [Bool.or_eq_false_iff] at h1 h2
    unfold findHostCapture
    by_cases hc : (c = 'H' || c = 'h') && "ost:".toList.isPrefixOf t
    · exfalso
      simp only [Bool.and_eq_true, Bool.or_eq_true, decide_eq_true_eq] at hc
      obtain ⟨hch, hpre⟩ := hc
      rcases hch with rfl | rfl
      · have : "Host:".toList.isPrefixOf ('H' :: t) = true := by
          simpa [List.isPrefixOf] using hpre
        rw [this] at h1
        exact Bool.noConfusion h1.1
      · have : "host:".toList.isPrefixOf ('h' :: t) = true := by
          simpa [List.isPrefixOf] using hpre
        rw [this] at h2
        exact Bool.noConfusion h2.1
    · rw [if_neg hc]
      exact ih h1.2 h2.2

lemma takeWhile_ne_colon_contains (l : List Char) :
    (l.takeWhile (fun c => c ≠ ':')).contains ':' = false := by
  induction l with
  | nil => rfl
  | cons c t ih =>
    by_cases hc : c = ':'
    · subst hc; simp [List.takeWhile]
    · simpa [List.takeWhile, hc, List.contains_cons, Ne.symm hc] using ih

lemma head_dropWhile_not (p : Char → Bool) (l : List Char) (c : Char)
    (h : (l.dropWhile p).head? = some c) : p c = false := by
  induction l with
  | nil => cases h
  | cons a t ih =>
    by_cases hp : p a = true
    · rw [List.dropWhile_cons_of_pos hp] at h
      exact ih h
    · rw [Bool.not_eq_true] at hp
      rw [List.dropWhile_cons_of_neg (by simp [hp])] at h
      cases h
      exact hp

lemma getLast_dropWhile (p : Char → Bool) (l : List Char) (c : Char)
    (h : (l.dropWhile p).getLast? = some c) : l.getLast? = some c := by
  induction l with
  | nil => cases h
  | cons a t ih =>
    by_cases hp : p a = true
    · rw [List.dropWhile_cons_of_pos hp] at h
      have ht := ih h
      cases t with
      | nil => cases ht
      | cons b t2 => rw [List.getLast?_cons_cons]; exact ht
    · rw [Bool.not_eq_true] at hp
      rw [List.dropWhile_cons_of_neg (by simp [hp])] at h
      exact h

/-- The leading character of a trimmed capture is never whitespace:
`trim` removed it. -/
lemma trimChars_head (l : List Char) (c : Char)
    (h : (trimChars l).head? = some c) : jsWhitespace c = false := by
  unfold trimChars at h
  rw [List.head?_reverse] at h
  have h2 := getLast_dropWhile jsWhitespace (l.dropWhile jsWhitespace).reverse c h
  rw [List.getLast?_reverse] at h2
  exact head_dropWhile_not jsWhitespace l c h2

/-- The trailing character of a trimmed capture is never whitespace:
`trim` removed it. -/
lemma trimChars_getLast (l : List Char) (c : Char)
    (h : (trimChars l).getLast? = some c) : jsWhitespace c = false := by
  unfold trimChars at h
  rw [List.getLast?_reverse] at h
  exact head_dropWhile_not jsWhitespace _ c h

/-- C8, counterexample: a recognized HTTP request whose payload
contains the substring HOST: in upper case is searched and no host is
found, refuting full case-insensitivity. -/
theorem C8_counterexample :
    isHTTPRequest c8CexBytes 0 c8CexBytes.length = true ∧
    hasSubstr "HOST:".toList
      (asciiChars c8CexBytes 0 (min c8CexBytes.length 2048)) = true ∧
    extractHTTPHost c8CexBytes 0 c8CexBytes.length = none := by decide

/-- C8, amended: the Host-header search over the first 2048 payload
bytes accepts exactly the spellings with upper- or lower-case first
letter and lower-case remainder (Host: or host:); when no such
spelling occurs the extraction yields nothing. Any extracted value is
obtained from the regex capture by trimming whitespace and then cutting
at the first colon: the value is exactly the trimmed capture up to the
first colon, the trimmed capture has no leading and no trailing
whitespace, and the value contains no colon, so a trailing :port suffix
is gone. -/
theorem C8_host_search (payload : List Nat) (off len : Nat) :
    (hasSubstr "Host:".toList (asciiChars payload off (min len 2048)) = false →
     hasSubstr "host:".toList (asciiChars payload off (min len 2048)) = false →
     extractHTTPHost payload off len = none) ∧
    (∀ h, extractHTTPHost payload off len = some h →
      ∃ cap, findHostCapture (asciiChars payload off (min len 2048)) = some cap ∧
        h.toList = (trimChars cap).takeWhile (fun c => c ≠ ':') ∧
        (∀ c, (trimChars cap).head? = some c → jsWhitespace c = false) ∧
        (∀ c, (trimChars cap).getLast? = some c → jsWhitespace c = false) ∧
        h.toList.contains ':' = false) := by
  constructor
  · intro h1 h2
    unfold extractHTTPHost
    by_cases hreq : isHTTPRequest payload off len
    · rw [if_neg (by simpa using hreq)]
      simp only [findHostCapture_none_of_no_host _ h1 h2]
    · rw [if_pos (by simpa using hreq)]
  · intro h hh
    unfold extractHTTPHost at hh
    by_cases hreq : isHTTPRequest payload off len
    · rw [if_neg (by simpa using hreq)] at hh
      cases hfc : findHostCapture (asciiChars payload off (min len 2048)) with
      | none => simp [hfc] at hh
      | some cap =>
        simp only [hfc, Option.some.injEq] at hh
        subst hh
        refine ⟨cap, rfl, rfl, fun c hc => trimChars_head cap c hc,
          fun c hc => trimChars_getLast cap c hc, ?_⟩
        simpa using takeWhile_ne_colon_contains (trimChars cap)
    · rw [if_pos (by simpa using hreq)] at hh
      cases hh

/-- C8, witness: the amended theorem evaluated on concrete requests —
the HOST:-only request yields nothing, and the value extracted from a
Host: header carrying a :80 suffix is the trimmed capture cut at the
first colon, whitespace-free at both ends and colon-free. -/
theorem C8_witness :
    extractHTTPHost c8NoHostBytes 0 c8NoHostBytes.length = none ∧
    (∃ cap, findHostCapture
        (asciiChars c8PortBytes 0 (min c8PortBytes.length 2048)) = some cap ∧
      "a.com".toList = (trimChars cap).takeWhile (fun c => c ≠ ':') ∧
      (∀ c, (trimChars cap).head? = some c → jsWhitespace c = false) ∧
      (∀ c, (trimChars cap).getLast? = some c → jsWhitespace c = false) ∧
      "a.com".toList.contains ':' = false) :=
  ⟨(C8_host_search c8NoHostBytes 0 c8NoHostBytes.length).1 (by decide) (by decide),
   (C8_host_search c8PortBytes 0 c8PortBytes.length).2 "a.com" (by decide)⟩

/-! ### Flow-table lemmas -/

lemma lookupFlow_setFlow_self (flows : List (String × Flow)) (k : String) (f : Flow) :
    lookupFlow (setFlow flows k f) k = some f := by
  unfold setFlow
  cases hf : flows.find? (fun e => e.1 = k) with
  | none =>
    unfold lookupFlow
    rw [List.find?_append, hf]
    simp
  | some e =>
    have hs : (flows.find? (fun e => e.1 = k)).isSome := by rw [hf]; rfl
    clear hf
    unfold lookupFlow
    induction flows with
    | nil => simp at hs
    | cons a t ih =>
      by_cases ha : a.1 = k
      · simp [ha]
      · rw [List.map_cons, if_neg ha]
        rw [List.find?_cons_of_neg _ (by simpa using ha)]
        rw [List.find?_cons_of_neg _ (by simpa using ha)] at hs
        exact ih (by simpa [List.find?_cons_of_neg, ha] using hs)

lemma lookupFlow_setFlow_ne (flows : List (String × Flow)) (k k2 : String)
    (f : Flow) (hne : k2 ≠ k) :
    lookupFlow (setFlow flows k f) k2 = lookupFlow flows k2 := by
  unfold setFlow
  cases hf : flows.find? (fun e => e.1 = k) with
  | none =>
    unfold lookupFlow
    rw [List.find?_append]
    have : ([(k, f)].find? (fun e => e.1 = k2)) = none := by
      simp [Ne.symm hne]
    rw [this]
    cases flows.find? (fun e => e.1 = k2) <;> rfl
  | some e =>
    clear hf
    unfold lookupFlow
    induction flows with
    | nil => rfl
    | cons a t ih =>
      rw [List.map_cons]
      by_cases ha : a.1 = k
      · rw [if_pos ha]
        rw [List.find?_cons_of_neg _ (by simpa using Ne.symm hne)]
        rw [List.find?_cons_of_neg _ (by simpa [ha] using Ne.symm hne)]
        exact ih
      · rw [if_neg ha]
        by_cases ha2 : a.1 = k2
        · rw [List.find?_cons_of_pos _ (by simpa using ha2)]
          rw [List.find?_cons_of_pos _ (by simpa using ha2)]
        · rw [List.find?_cons_of_neg _ (by simpa using ha2)]
          rw [List.find?_cons_of_neg _ (by simpa using ha2)]
          exact ih

/-! ### Claim C7 — first adopted flow name is never overwritten -/

lemma packetFlowState_existing (rules : List BlockRule)
    (flows : List (String × Flow)) (parsed : ParsedPacket) (dpi : DpiResult)
    (dataLen : Nat) (f : Flow)
    (hl : lookupFlow flows parsed.fiveTuple = some f) (hsni : f.sni ≠ "") :
    (packetFlowState rules flows parsed dpi dataLen).1.sni = f.sni ∧
      (packetFlowState rules flows parsed dpi dataLen).1.appType = f.appType := by
  unfold packetFlowState
  simp only [hl]
  have hcond : ¬ (optTruthy dpi.sni = true ∧
      ({ f with packets := f.packets + 1, bytes := f.bytes + dataLen } : Flow).sni = "") := by
    rintro ⟨-, hbad⟩
    exact hsni hbad
  rw [if_neg hcond]
  by_cases hb : isBlocked parsed
      { dpi with
        sni := if ({ f with packets := f.packets + 1, bytes := f.bytes + dataLen } : Flow).sni ≠ ""
          then some ({ f with packets := f.packets + 1, bytes := f.bytes + dataLen } : Flow).sni
          else dpi.sni
        appType := if ({ f with packets := f.packets + 1, bytes := f.bytes + dataLen } : Flow).appType ≠ ""
          then ({ f with packets := f.packets + 1, bytes := f.bytes + dataLen } : Flow).appType
          else dpi.appType } rules = true
  · rw [if_pos hb]
    exact ⟨rfl, rfl⟩
  · rw [if_neg hb]
    exact ⟨rfl, rfl⟩

lemma analysisStep_preserves_flow (rules : List BlockRule) (s : RunState)
    (ipkt : Nat × PcapPacket) (t : String) (f : Flow)
    (hl : lookupFlow s.flows t = some f) (hsni : f.sni ≠ "") :
    ∃ f2, lookupFlow (analysisStep rules s ipkt).flows t = some f2 ∧
      f2.sni = f.sni ∧ f2.appType = f.appType ∧ f2.sni ≠ "" := by
  unfold analysisStep
  cases hp : parsePacket ipkt.2.data ipkt.1 (some ipkt.2.header) with
  | none => exact ⟨f, hl, rfl, rfl, hsni⟩
  | some parsed =>
    simp only
    by_cases ht : parsed.fiveTuple = t
    · subst ht
      have hpres := packetFlowState_existing rules s.flows parsed
        (inspect ipkt.2.data parsed) ipkt.2.data.length f hl hsni
      refine ⟨(packetFlowState rules s.flows parsed (inspect ipkt.2.data parsed)
          ipkt.2.data.length).1, ?_, hpres.1, hpres.2, by rw [hpres.1]; exact hsni⟩
      exact lookupFlow_setFlow_self _ _ _
    · refine ⟨f, ?_, rfl, rfl, hsni⟩
      rw [lookupFlow_setFlow_ne _ _ _ _ (fun hh => ht hh.symm)]
      exact hl

lemma foldl_preserves_flow (rules : List BlockRule)
    (l : List (Nat × PcapPacket)) (s : RunState) (t : String) (f : Flow)
    (hl : lookupFlow s.flows t = some f) (hsni : f.sni ≠ "") :
    ∃ f2, lookupFlow ((l.foldl (analysisStep rules) s)).flows t = some f2 ∧
      f2.sni = f.sni ∧ f2.appType = f.appType ∧ f2.sni ≠ "" := by
  induction l generalizing s f with
  | nil => exact ⟨f, hl, rfl, rfl, hsni⟩
  | cons ip rest ih =>
    obtain ⟨f1, h1, h2, h3, h4⟩ := analysisStep_preserves_flow rules s ip t f hl hsni
    obtain ⟨f2, g1, g2, g3, g4⟩ := ih (analysisStep rules s ip) f1 h1 h4
    exact ⟨f2, g1, by rw [g2, h2], by rw [g3, h3], g4⟩

/-- C7: once a flow has adopted a non-empty DPI name, processing any
further packets of the run never changes the flow's name or label — no
later packet of the same five-tuple, with or without its own DPI
result, overwrites them. -/
theorem C7_first_name_sticky (packets : List PcapPacket) (rules : List BlockRule)
    (n m : Nat) (t : String) (f : Flow) (hnm : n ≤ m)
    (hl : lookupFlow (runAnalysisPrefix packets rules n).flows t = some f)
    (hsni : f.sni ≠ "") :
    ∃ f2, lookupFlow (runAnalysisPrefix packets rules m).flows t = some f2 ∧
      f2.sni = f.sni ∧ f2.appType = f.appType := by
  unfold runAnalysisPrefix at hl ⊢
  rw [show m = n + (m - n) by omega, List.take_add, List.foldl_append]
  obtain ⟨f2, g1, g2, g3, -⟩ := foldl_preserves_flow rules
    ((packets.enum.drop n).take (m - n)) _ t f hl hsni
  exact ⟨f2, g1, g2, g3⟩

/-- C7, witness: after the first packet the flow has name netflix.com;
processing the second, payload-less packet of the same flow leaves name
and label unchanged. -/
theorem C7_witness :
    ∃ f2, lookupFlow (runAnalysisPrefix [dnsQueryRecord, emptyUdpRecord] [] 2).flows
        "10.0.0.1:5353-8.8.8.8:53-17" = some f2 ∧
      f2.sni = c7Flow.sni ∧ f2.appType = c7Flow.appType :=
  C7_first_name_sticky [dnsQueryRecord, emptyUdpRecord] [] 1 2
    "10.0.0.1:5353-8.8.8.8:53-17" c7Flow (by decide) (by decide) (by decide)

/-! ### Claim C10 — verdict and transport counters partition parsed packets -/

lemma analysisStep_invariant (rules : List BlockRule) (s : RunState)
    (ipkt : Nat × PcapPacket) (h : runInvariant s) :
    runInvariant (analysisStep rules s ipkt) := by
  obtain ⟨h1, h2⟩ := h
  unfold analysisStep
  cases hp : parsePacket ipkt.2.data ipkt.1 (some ipkt.2.header) with
  | none => exact ⟨h1, h2⟩
  | some parsed =>
    constructor
    · show (if (packetFlowState rules s.flows parsed (inspect ipkt.2.data parsed)
            ipkt.2.data.length).2 = true then s.forwarded else s.forwarded + 1) +
          (if (packetFlowState rules s.flows parsed (inspect ipkt.2.data parsed)
            ipkt.2.data.length).2 = true then s.dropped + 1 else s.dropped) =
        s.parsedCount + 1
      split_ifs <;> omega
    · show (if parsed.protocol = 6 then s.tcpCount + 1 else s.tcpCount) +
          (if parsed.protocol ≠ 6 ∧ parsed.protocol = 17 then s.udpCount + 1
            else s.udpCount) +
          (if parsed.protocol ≠ 6 ∧ parsed.protocol ≠ 17 then s.otherCount + 1
            else s.otherCount) =
        s.parsedCount + 1
      split_ifs <;> omega

/-- C10: at the end of the packet loop the forwarded plus dropped
counters equal the parsed-packet counter, and the TCP, UDP and other
transport counters also sum to the parsed-packet counter. -/
theorem C10_counter_sums (packets : List PcapPacket) (rules : List BlockRule) :
    (runAnalysisFold packets rules).forwarded +
        (runAnalysisFold packets rules).dropped =
      (runAnalysisFold packets rules).parsedCount ∧
    (runAnalysisFold packets rules).tcpCount +
        (runAnalysisFold packets rules).udpCount +
        (runAnalysisFold packets rules).otherCount =
      (runAnalysisFold packets rules).parsedCount := by
  have main : ∀ (l : List (Nat × PcapPacket)) (s : RunState),
      runInvariant s → runInvariant (l.foldl (analysisStep rules) s) := by
    intro l
    induction l with
    | nil => intro s h; exact h
    | cons ip rest ih =>
      intro s h
      exact ih _ (analysisStep_invariant rules s ip h)
  exact main packets.enum initRunState ⟨rfl, rfl⟩

/-! ### Byte-level lemmas for the container round trip -/

lemma readUInt8_shift (pre l : List Nat) (i : Nat) :
    readUInt8 (pre ++ l) (pre.length + i) = readUInt8 l i := by
  unfold readUInt8
  rw [List.getD_append_right _ _ _ _ (Nat.le_add_right _ _)]
  simp

lemma readUInt32LE_shift (pre l : List Nat) (i : Nat) :
    readUInt32LE (pre ++ l) (pre.length + i) = readUInt32LE l i := by
  unfold readUInt32LE
  rw [show pre.length + i + 1 = pre.length + (i + 1) by omega,
      show pre.length + i + 2 = pre.length + (i + 2) by omega,
      show pre.length + i + 3 = pre.length + (i + 3) by omega,
      readUInt8_shift, readUInt8_shift, readUInt8_shift, readUInt8_shift]

lemma write32LE_length (n : Nat) : (write32LE n).length = 4 := rfl

lemma read32LE_word (n : Nat) (rest : List Nat) :
    readUInt32LE (write32LE n ++ rest) 0 = n % 4294967296 := by
  show readUInt32LE (n % 256 :: (n / 256 % 256 :: (n / 65536 % 256 ::
    (n / 16777216 % 256 :: rest)))) 0 = n % 4294967296
  unfold readUInt32LE readUInt8
  simp only [List.getD_cons_zero, List.getD_cons_succ]
  omega

lemma read32_at4 (n : Nat) (l : List Nat) :
    readUInt32LE (write32LE n ++ l) 4 = readUInt32LE l 0 := by
  simpa [write32LE_length] using readUInt32LE_shift (write32LE n) l 0

lemma read32_at8 (a b : Nat) (l : List Nat) :
    readUInt32LE (write32LE a ++ (write32LE b ++ l)) 8 = readUInt32LE l 0 := by
  have h := readUInt32LE_shift (write32LE a) (write32LE b ++ l) 4
  rw [read32_at4] at h
  simpa [write32LE_length] using h

lemma read32_at12 (a b c : Nat) (l : List Nat) :
    readUInt32LE (write32LE a ++ (write32LE b ++ (write32LE c ++ l))) 12 =
      readUInt32LE l 0 := by
  have h := readUInt32LE_shift (write32LE a) (write32LE b ++ (write32LE c ++ l)) 8
  rw [read32_at8] at h
  simpa [write32LE_length] using h

lemma read32_false (buf : List Nat) (off : Nat) :
    read32 false buf off = readUInt32LE buf off := rfl

lemma encodeRecordHeader_length (p : PcapPacket) :
    (encodeRecordHeader p).length = 16 := by
  simp [encodeRecordHeader, write32LE_length]

lemma encodeRecord_length (p : PcapPacket) :
    (encodeRecord p).length = 16 + p.data.length := by
  simp [encodeRecord, encodeRecordHeader_length]

lemma encodeRecords_length_ge (rs : List PcapPacket) :
    16 * rs.length ≤ (encodeRecords rs).length := by
  induction rs with
  | nil => simp [encodeRecords]
  | cons r t ih =>
    show 16 * (t.length + 1) ≤ (encodeRecord r ++ encodeRecords t).length
    rw [List.length_append, encodeRecord_length]
    omega

lemma reads_encodeRecord (r : PcapPacket) (rest : List Nat) :
    readUInt32LE (encodeRecord r ++ rest) 0 = r.header.tsSec % 4294967296 ∧
    readUInt32LE (encodeRecord r ++ rest) 4 = r.header.tsUsec % 4294967296 ∧
    readUInt32LE (encodeRecord r ++ rest) 8 = r.data.length % 4294967296 ∧
    readUInt32LE (encodeRecord r ++ rest) 12 = r.data.length % 4294967296 := by
  have hassoc : encodeRecord r ++ rest =
      write32LE r.header.tsSec ++ (write32LE r.header.tsUsec ++
        (write32LE r.data.length ++ (write32LE r.data.length ++ (r.data ++ rest)))) := by
    simp [encodeRecord, encodeRecordHeader, List.append_assoc]
  rw [hassoc]
  exact ⟨read32LE_word _ _,
    by rw [read32_at4, read32LE_word],
    by rw [read32_at8, read32LE_word],
    by rw [read32_at12, read32LE_word]⟩

lemma parsePacketHeader_encoded (pre : List Nat) (r : PcapPacket) (rest : List Nat) :
    parsePacketHeader (pre ++ (encodeRecord r ++ rest)) pre.length false =
      some { tsSec := r.header.tsSec % 4294967296
             tsUsec := r.header.tsUsec % 4294967296
             inclLen := r.data.length % 4294967296
             origLen := r.data.length % 4294967296 } := by
  have hlen : (pre ++ (encodeRecord r ++ rest)).length =
      pre.length + (16 + r.data.length + rest.length) := by
    rw [List.length_append, List.length_append, encodeRecord_length]
  obtain ⟨e0, e4, e8, e12⟩ := reads_encodeRecord r rest
  unfold parsePacketHeader
  rw [if_neg (by omega)]
  have s0 := readUInt32LE_shift pre (encodeRecord r ++ rest) 0
  rw [Nat.add_zero] at s0
  have s4 := readUInt32LE_shift pre (encodeRecord r ++ rest) 4
  have s8 := readUInt32LE_shift pre (encodeRecord r ++ rest) 8
  have s12 := readUInt32LE_shift pre (encodeRecord r ++ rest) 12
  rw [read32_false, read32_false, read32_false, read32_false,
      s0, s4, s8, s12, e0, e4, e8, e12]

lemma slice_encoded (pre : List Nat) (r : PcapPacket) (rest : List Nat) :
    bufSlice (pre ++ (encodeRecord r ++ rest)) (pre.length + 16) r.data.length =
      r.data := by
  unfold bufSlice
  have h1 : (pre ++ (encodeRecord r ++ rest)).drop (pre.length + 16) =
      r.data ++ rest := by
    rw [List.drop_append]
    have hx : encodeRecord r ++ rest = encodeRecordHeader r ++ (r.data ++ rest) := by
      simp [encodeRecord, List.append_assoc]
    rw [hx]
    have h16 : (16 : Nat) = (encodeRecordHeader r).length + 0 := by
      rw [encodeRecordHeader_length]
    rw [h16, List.drop_append]
    rfl
  rw [h1]
  exact List.take_left _ _

/-- Decoding the encoder's output from the offset just past an already
consumed prefix yields exactly the encoded records, normalised. -/
lemma decode_encode_loop (rs : List PcapPacket) :
    ∀ (pre : List Nat) (acc : List PcapPacket) (fuel : Nat),
      (∀ r ∈ rs, r.data.length ≤ 65535) → rs.length + 1 ≤ fuel →
      parsePacketsLoop (pre ++ encodeRecords rs) false 65535 fuel pre.length acc =
        acc ++ rs.map normRecord := by
  induction rs with
  | nil =>
    intro pre acc fuel _ hfuel
    obtain ⟨f, rfl⟩ : ∃ f, fuel = f + 1 := ⟨fuel - 1, by omega⟩
    show parsePacketsLoop (pre ++ encodeRecords []) false 65535 (f + 1) pre.length acc =
      acc ++ ([] : List PcapPacket).map normRecord
    unfold parsePacketsLoop
    rw [if_neg (by simp [encodeRecords])]
    simp
  | cons r rs ih =>
    intro pre acc fuel hb rfuel
    obtain ⟨f, rfl⟩ : ∃ f, fuel = f + 1 := ⟨fuel - 1, by omega⟩
    have hle : r.data.length ≤ 65535 := hb r (by simp)
    have hmod : r.data.length % 4294967296 = r.data.length :=
      Nat.mod_eq_of_lt (by omega)
    have hrec : encodeRecords (r :: rs) = encodeRecord r ++ encodeRecords rs := rfl
    rw [hrec]
    have hlen : (pre ++ (encodeRecord r ++ encodeRecords rs)).length =
        pre.length + (16 + r.data.length + (encodeRecords rs).length) := by
      rw [List.length_append, List.length_append, encodeRecord_length]
    unfold parsePacketsLoop
    rw [if_pos (by omega)]
    simp only [parsePacketHeader_encoded, hmod]
    rw [if_neg (by omega)]
    rw [if_neg (by omega)]
    rw [slice_encoded]
    have hshape : pre ++ (encodeRecord r ++ encodeRecords rs) =
        (pre ++ encodeRecord r) ++ encodeRecords rs := by
      rw [List.append_assoc]
    have hoff : pre.length + 16 + r.data.length = (pre ++ encodeRecord r).length := by
      rw [List.length_append, encodeRecord_length]
      omega
    rw [hshape, hoff, ih (pre ++ encodeRecord r) _ f (fun x hx => hb x (by simp [hx]))
      (by simp only [List.length_cons] at rfuel; omega)]
    simp [normRecord]

lemma read32_left (l r : List Nat) (i : Nat) (h : i + 3 < l.length) :
    readUInt32LE (l ++ r) i = readUInt32LE l i := by
  unfold readUInt32LE readUInt8
  rw [List.getD_append _ _ _ _ (by omega), List.getD_append _ _ _ _ (by omega),
      List.getD_append _ _ _ _ (by omega), List.getD_append _ _ _ _ (by omega)]

lemma read16_left (l r : List Nat) (i : Nat) (h : i + 1 < l.length) :
    readUInt16LE (l ++ r) i = readUInt16LE l i := by
  unfold readUInt16LE readUInt8
  rw [List.getD_append _ _ _ _ (by omega), List.getD_append _ _ _ _ (by omega)]

lemma pcapGlobalHeaderBytes_length : pcapGlobalHeaderBytes.length = 24 := rfl

lemma mkGlobalHeader_written (rest : List Nat) :
    mkGlobalHeader (pcapGlobalHeaderBytes ++ rest) PCAP_MAGIC_NATIVE false =
      ghWritten := by
  have hb : pcapGlobalHeaderBytes.length = 24 := pcapGlobalHeaderBytes_length
  have r4 : readUInt16LE (pcapGlobalHeaderBytes ++ rest) 4 = 2 := by
    rw [read16_left _ _ _ (by omega)]
    decide
  have r6 : readUInt16LE (pcapGlobalHeaderBytes ++ rest) 6 = 4 := by
    rw [read16_left _ _ _ (by omega)]
    decide
  have r8 : readUInt32LE (pcapGlobalHeaderBytes ++ rest) 8 = 0 := by
    rw [read32_left _ _ _ (by omega)]
    decide
  have r12 : readUInt32LE (pcapGlobalHeaderBytes ++ rest) 12 = 0 := by
    rw [read32_left _ _ _ (by omega)]
    decide
  have r16 : readUInt32LE (pcapGlobalHeaderBytes ++ rest) 16 = 65535 := by
    rw [read32_left _ _ _ (by omega)]
    decide
  have r20 : readUInt32LE (pcapGlobalHeaderBytes ++ rest) 20 = 1 := by
    rw [read32_left _ _ _ (by omega)]
    decide
  unfold mkGlobalHeader ghWritten
  show ({ magic := PCAP_MAGIC_NATIVE
          versionMajor := readUInt16LE (pcapGlobalHeaderBytes ++ rest) 4
          versionMinor := readUInt16LE (pcapGlobalHeaderBytes ++ rest) 6
          thisZone := readUInt32LE (pcapGlobalHeaderBytes ++ rest) 8
          sigFigs := readUInt32LE (pcapGlobalHeaderBytes ++ rest) 12
          snapLen := readUInt32LE (pcapGlobalHeaderBytes ++ rest) 16
          network := readUInt32LE (pcapGlobalHeaderBytes ++ rest) 20
          needsSwap := false } : GlobalHeader) = _
  rw [r4, r6, r8, r12, r16, r20]
  rfl

lemma parseGlobalHeader_written (rest : List Nat) :
    parseGlobalHeader (pcapGlobalHeaderBytes ++ rest) = some ghWritten := by
  have hb : pcapGlobalHeaderBytes.length = 24 := pcapGlobalHeaderBytes_length
  have hlen : (pcapGlobalHeaderBytes ++ rest).length = 24 + rest.length := by
    rw [List.length_append, hb]
  have hm : readUInt32LE (pcapGlobalHeaderBytes ++ rest) 0 = PCAP_MAGIC_NATIVE := by
    rw [read32_left _ _ _ (by omega)]
    decide
  unfold parseGlobalHeader
  rw [if_neg (by omega)]
  simp only [hm]
  rw [if_pos trivial]
  rw [mkGlobalHeader_written]

/-- Every record the decode loop ever pushes respects the 65535-byte
cap, because the loop rejects larger captured lengths before slicing. -/
lemma parsePacketsLoop_bounds (buf : List Nat) (swap : Bool) (snap : Nat) :
    ∀ (fuel offset : Nat) (acc : List PcapPacket),
      (∀ p ∈ acc, p.data.length ≤ 65535) →
      ∀ p ∈ parsePacketsLoop buf swap snap fuel offset acc, p.data.length ≤ 65535 := by
  intro fuel
  induction fuel with
  | zero => intro offset acc hacc p hp; exact hacc p hp
  | succ f ih =>
    intro offset acc hacc p hp
    unfold parsePacketsLoop at hp
    by_cases hoff : offset < buf.length
    case neg => rw [if_neg hoff] at hp; exact hacc p hp
    rw [if_pos hoff] at hp
    cases hph : parsePacketHeader buf offset swap with
    | none => simp only [hph] at hp; exact hacc p hp
    | some ph =>
      simp only [hph] at hp
      by_cases h1 : ph.inclLen > snap ∨ ph.inclLen > 65535
      · rw [if_pos h1] at hp; exact hacc p hp
      · rw [if_neg h1] at hp
        by_cases h2 : offset + 16 + ph.inclLen > buf.length
        · rw [if_pos h2] at hp; exact hacc p hp
        · rw [if_neg h2] at hp
          refine ih _ _ ?_ p hp
          intro q hq
          rcases List.mem_append.1 hq with hq | hq
          · exact hacc q hq
          · have hq1 : q = { header := ph, data := bufSlice buf (offset + 16) ph.inclLen } := by
              simpa using hq
            subst hq1
            have : (bufSlice buf (offset + 16) ph.inclLen).length ≤ ph.inclLen := by
              unfold bufSlice
              simp
            simp only [not_or, not_lt] at h1
            exact le_trans this h1.2

lemma parsePcapFile_bounds {buf : List Nat} {gh : PcapFileHeaderOut}
    {pkts : List PcapPacket} (h : parsePcapFile buf = some (gh, pkts)) :
    ∀ p ∈ pkts, p.data.length ≤ 65535 := by
  unfold parsePcapFile at h
  cases hg : parseGlobalHeader buf with
  | none => simp [hg] at h
  | some g =>
    simp only [hg, Option.some.injEq, Prod.mk.injEq] at h
    obtain ⟨-, hpkts⟩ := h
    rw [← hpkts]
    exact parsePacketsLoop_bounds buf g.needsSwap g.snapLen buf.length 24 []
      (by intro p hp; cases hp)

lemma parsePcapFile_some {buf : List Nat} {gh : GlobalHeader}
    (h : parseGlobalHeader buf = some gh) :
    parsePcapFile buf =
      some ({ version := toString gh.versionMajor ++ "." ++ toString gh.versionMinor
              snapLen := gh.snapLen
              linkType := gh.network
              linkTypeName := if gh.network = 1 then "Ethernet"
                else "Unknown(" ++ toString gh.network ++ ")" },
            parsePacketsLoop buf gh.needsSwap gh.snapLen buf.length 24 []) := by
  unfold parsePcapFile
  simp only [h]

/-- Re-decoding the encoder's output: a clean normalised global header
and exactly the encoded records with payload bytes untouched. -/
lemma parsePcapFile_write (pkts : List PcapPacket)
    (hb : ∀ p ∈ pkts, p.data.length ≤ 65535) :
    parsePcapFile (writePcapFile pkts) =
      some ({ version := "2.4", snapLen := 65535, linkType := 1
              linkTypeName := "Ethernet" },
            pkts.map normRecord) := by
  have hw : writePcapFile pkts = pcapGlobalHeaderBytes ++ encodeRecords pkts := rfl
  rw [hw, parsePcapFile_some (parseGlobalHeader_written (encodeRecords pkts))]
  rw [show ghWritten.needsSwap = false from rfl,
      show ghWritten.snapLen = (65535 : Nat) from rfl]
  have hfuel : pkts.length + 1 ≤ (pcapGlobalHeaderBytes ++ encodeRecords pkts).length := by
    have h1 := encodeRecords_length_ge pkts
    have h2 : (pcapGlobalHeaderBytes ++ encodeRecords pkts).length =
        24 + (encodeRecords pkts).length := by
      rw [List.length_append, pcapGlobalHeaderBytes_length]
    omega
  rw [show (24 : Nat) = pcapGlobalHeaderBytes.length from rfl,
      decode_encode_loop pkts pcapGlobalHeaderBytes []
        ((pcapGlobalHeaderBytes ++ encodeRecords pkts).length) hb hfuel,
      List.nil_append]
  have hh : ({ version := toString ghWritten.versionMajor ++ "." ++
                 toString ghWritten.versionMinor
               snapLen := (65535 : Nat)
               linkType := ghWritten.network
               linkTypeName := if ghWritten.network = 1 then "Ethernet"
                 else "Unknown(" ++ toString ghWritten.network ++ ")" } : PcapFileHeaderOut) =
      { version := "2.4", snapLen := 65535, linkType := 1, linkTypeName := "Ethernet" } := by
    decide
  rw [hh]

/-! ### Claim C1 — decode, encode, decode round trip -/

/-- C1: decoding any valid container, re-encoding the decoded records
and decoding again succeeds with the encoder's normalised global
header, the same number of records, and byte-identical raw payloads. -/
theorem C1_roundtrip (buf : List Nat) (gh : PcapFileHeaderOut)
    (pkts : List PcapPacket)
    (h : parsePcapFile buf = some (gh, pkts)) :
    parsePcapFile (writePcapFile pkts) =
      some ({ version := "2.4", snapLen := 65535, linkType := 1
              linkTypeName := "Ethernet" },
            pkts.map normRecord) ∧
    (pkts.map normRecord).length = pkts.length ∧
    (pkts.map normRecord).map (fun p => p.data) = pkts.map (fun p => p.data) := by
  refine ⟨parsePcapFile_write pkts (parsePcapFile_bounds h), by simp, ?_⟩
  simp [normRecord, List.map_map, Function.comp]

/-- C1, witness: the round trip evaluated on a concrete container. -/
theorem C1_witness :
    parsePcapFile (writePcapFile c1Pkts) =
      some ({ version := "2.4", snapLen := 65535, linkType := 1
              linkTypeName := "Ethernet" },
            c1Pkts.map normRecord) ∧
    (c1Pkts.map normRecord).length = c1Pkts.length ∧
    (c1Pkts.map normRecord).map (fun p => p.data) = c1Pkts.map (fun p => p.data) :=
  C1_roundtrip (writePcapFile c1Pkts)
    { version := "2.4", snapLen := 65535, linkType := 1, linkTypeName := "Ethernet" }
    c1Pkts (by decide)

/-! ### Claim C3 — filtered export -/

lemma parsePacket_index (data : List Nat) (i : Nat) (hdr : Option PcapRecordHeader) :
    parsePacket data i hdr =
      (parsePacket data 0 hdr).map (fun p => { p with index := i }) := by
  unfold parsePacket
  cases parseEthernet data with
  | none => rfl
  | some eth =>
    simp only
    by_cases hety : eth.etherType ≠ 0x0800
    · rw [if_pos hety, if_pos hety]
      rfl
    · rw [if_neg hety, if_neg hety]
      cases parseIPv4Header data 14 with
      | none => rfl
      | some ip =>
        simp only
        by_cases h6 : ip.protocol = 6
        · rw [if_pos h6, if_pos h6]
          cases parseTCP data (14 + ip.headerLen) with
          | none => rfl
          | some t => rfl
        · rw [if_neg h6, if_neg h6]
          by_cases h17 : ip.protocol = 17
          · rw [if_pos h17, if_pos h17]
            cases parseUDP data (14 + ip.headerLen) with
            | none => rfl
            | some u => rfl
          · rw [if_neg h17, if_neg h17]
            rfl

/-- The keep decision of one export-loop iteration does not depend on
the running index handed to the dissector. -/
lemma exportKeep_eq (rules : List BlockRule) (i : Nat) (pkt : PcapPacket) :
    (match parsePacket pkt.data i (some pkt.header) with
     | none => true
     | some parsed => !(isBlocked parsed (inspect pkt.data parsed) rules)) =
      exportKeep rules pkt := by
  rw [parsePacket_index pkt.data i (some pkt.header)]
  unfold exportKeep
  cases parsePacket pkt.data 0 (some pkt.header) with
  | none => rfl
  | some p => rfl

lemma exportFilterLoop_eq (rules : List BlockRule) :
    ∀ (l : List (Nat × PcapPacket)) (acc : List PcapPacket),
      exportFilterLoop rules l acc =
        acc ++ (l.filter (fun ip => exportKeep rules ip.2)).map (fun ip => ip.2) := by
  intro l
  induction l with
  | nil => intro acc; simp [exportFilterLoop]
  | cons ip rest ih =>
    intro acc
    have hk := exportKeep_eq rules ip.1 ip.2
    unfold exportFilterLoop
    cases hp : parsePacket ip.2.data ip.1 (some ip.2.header) with
    | none =>
      simp only [hp] at hk ⊢
      rw [ih, List.filter_cons, ← hk]
      simp
    | some parsed =>
      simp only [hp] at hk ⊢
      by_cases hb : isBlocked parsed (inspect ip.2.data parsed) rules = true
      · rw [if_pos hb, ih, List.filter_cons, ← hk, hb]
        simp
      · rw [Bool.not_eq_true] at hb
        rw [if_neg (by rw [hb]; exact Bool.false_ne_true), ih,
            List.filter_cons, ← hk, hb]
        simp

lemma enumFrom_filter_snd_map (P : PcapPacket → Bool) :
    ∀ (n : Nat) (l : List PcapPacket),
      ((l.enumFrom n).filter (fun ip => P ip.2)).map (fun ip => ip.2) = l.filter P := by
  intro n l
  induction l generalizing n with
  | nil => rfl
  | cons a t ih =>
    simp only [List.enumFrom_cons, List.filter_cons]
    by_cases hp : P a = true
    · simp [hp, ih]
    · rw [Bool.not_eq_true] at hp
      simp [hp, ih]

/-- The export loop keeps exactly the records whose own per-packet
evaluation does not block them, in file order. -/
lemma exportFilter_eq_filter (packets : List PcapPacket) (rules : List BlockRule) :
    exportFilter packets rules = packets.filter (exportKeep rules) := by
  unfold exportFilter
  rw [exportFilterLoop_eq, List.nil_append, List.enum_eq_enumFrom,
      enumFrom_filter_snd_map]

/-- C3, counterexample: both records belong to the same flow X, the
analysis run marks flow X blocked under the rule set, yet the filtered
export still contains the second record of flow X — export filtering is
per packet, so the export is not the records of all flows except X
(which would be the empty list here). -/
theorem C3_counterexample :
    ((parsePacket dnsQueryRecord.data 0 (some dnsQueryRecord.header)).map
        (fun p => p.fiveTuple) = some "10.0.0.1:5353-8.8.8.8:53-17") ∧
    ((parsePacket emptyUdpRecord.data 1 (some emptyUdpRecord.header)).map
        (fun p => p.fiveTuple) = some "10.0.0.1:5353-8.8.8.8:53-17") ∧
    ((lookupFlow (runAnalysisFold [dnsQueryRecord, emptyUdpRecord] c3Rules).flows
        "10.0.0.1:5353-8.8.8.8:53-17").map (fun f => f.blocked) = some true) ∧
    exportFilter [dnsQueryRecord, emptyUdpRecord] c3Rules = [emptyUdpRecord] := by
  decide

/-- C3, amended: for every decoded container and rule set, the filtered
export contains exactly the records whose packets are not individually
matched by any active rule — evaluated per packet with that packet's
own DPI result, without flow-level stickiness — in original order; a
record whose packet fails dissection is always retained; and re-decoding
the exported container reproduces byte-identical payloads for all
retained records. -/
theorem C3_export_filter (buf : List Nat) (gh : PcapFileHeaderOut)
    (packets : List PcapPacket) (rules : List BlockRule)
    (h : parsePcapFile buf = some (gh, packets)) :
    exportFilter packets rules = packets.filter (exportKeep rules) ∧
    (∀ pkt ∈ packets, parsePacket pkt.data 0 (some pkt.header) = none →
      pkt ∈ exportFilter packets rules) ∧
    (parsePcapFile (writePcapFile (exportFilter packets rules))).map
        (fun r => r.2.map (fun p => p.data)) =
      some ((exportFilter packets rules).map (fun p => p.data)) := by
  have h1 := exportFilter_eq_filter packets rules
  refine ⟨h1, ?_, ?_⟩
  · intro pkt hmem hnone
    rw [h1]
    refine List.mem_filter.2 ⟨hmem, ?_⟩
    unfold exportKeep
    simp only [hnone]
  · have hbsub : ∀ p ∈ exportFilter packets rules, p.data.length ≤ 65535 := by
      intro p hp
      rw [h1] at hp
      exact parsePcapFile_bounds h p (List.mem_filter.1 hp).1
    rw [parsePcapFile_write _ hbsub]
    simp [normRecord, List.map_map, Function.comp]

/-- C3, witness: the amended claim evaluated on a concrete decoded
container with an unparseable record and no rules. -/
theorem C3_witness :
    exportFilter c3wPkts [] = c3wPkts.filter (exportKeep []) ∧
    c3wShort ∈ exportFilter c3wPkts [] ∧
    (parsePcapFile (writePcapFile (exportFilter c3wPkts []))).map
        (fun r => r.2.map (fun p => p.data)) =
      some ((exportFilter c3wPkts []).map (fun p => p.data)) := by
  have T := C3_export_filter (writePcapFile c3wPkts)
    { version := "2.4", snapLen := 65535, linkType := 1, linkTypeName := "Ethernet" }
    c3wPkts [] (by decide)
  exact ⟨T.1, T.2.1 c3wShort (by decide) (by decide), T.2.2⟩

end PacketVision
